import Mathlib

/-!
# Verification of the kiwix-desktop download-management and library glue layer

Shallow embedding of `src/downloadmanagement.cpp` and `src/library.cpp`.
C++ `double` arithmetic is modelled over `ℚ` (with an explicit marker type
`DubVal` for the IEEE non-finite results `nan`/`inf`), machine integers over
`Nat`/`Int` with explicit wrapping where a cast matters, and fallible C++
code (functions that may throw) over `Option`/`Except`.
-/

namespace Kiwix

/-! ## Size formatting (`convertToUnits`, downloadmanagement.cpp:16-27) -/

/-- The unit list `{"bytes", "KB", "MB", "GB", "TB", "PB", "EB"}`. -/
def unitsList : List String := ["bytes", "KB", "MB", "GB", "TB", "PB", "EB"]

/-- The `while (bytes >= 1024 && unitIndex < units.size())` loop of
`convertToUnits`.  Each iteration requires `unitIndex < unitsList.length`
and increments `unitIndex`, so the loop performs at most
`unitsList.length - unitIndex` iterations; supplying exactly that number as
structural fuel reproduces the loop without changing its behaviour. -/
def convertLoopF : Nat → ℚ → Nat → ℚ × Nat
  | 0, bytes, unitIndex => (bytes, unitIndex)
  | fuel + 1, bytes, unitIndex =>
    if 1024 ≤ bytes ∧ unitIndex < unitsList.length then
      convertLoopF fuel (bytes / 1024) (unitIndex + 1)
    else
      (bytes, unitIndex)

/-- The scaling loop of `convertToUnits`, started with the fuel bound. -/
def convertLoop (bytes : ℚ) (unitIndex : Nat) : ℚ × Nat :=
  convertLoopF (unitsList.length - unitIndex) bytes unitIndex

/-! ### Rounding to three significant digits

`QString::number(x, 'g', 3)` renders `x` rounded to (at most) three
significant digits; reading the result back (`toDouble`) yields the rounded
value.  The value-level effect is modelled by `roundSig3`. -/

/-- Base-10 logarithm on `Nat` (`log10 n` = number of digits of `n` minus 1),
written with structural fuel (`n` itself is enough fuel since
`log10 n ≤ n`). -/
def log10F : Nat → Nat → Nat
  | 0, _ => 0
  | fuel + 1, n => if 10 ≤ n then log10F fuel (n / 10) + 1 else 0

/-- Base-10 logarithm on `Nat`. -/
def log10 (n : Nat) : Nat := log10F n n

/-- Integer powers of ten over `ℚ`, kept kernel-computable. -/
def qpow10 (e : ℤ) : ℚ :=
  if 0 ≤ e then ((10 : ℚ) ^ e.toNat) else 1 / (10 : ℚ) ^ (-e).toNat

/-- Smallest `k` such that `q * 10^k ≥ 1` (for `0 < q < 1`), with fuel. -/
def rexpAuxF : Nat → ℚ → Nat
  | 0, _ => 0
  | fuel + 1, q => if 1 ≤ q then 0 else rexpAuxF fuel (q * 10) + 1

/-- Decimal exponent of `q > 0`: the `e` with (approximately)
`10^e ≤ q < 10^(e+1)`.  For `q < 1` the search multiplies by `10` until the
value reaches `1`; `q.den` steps of fuel are always enough because
`q ≥ 1/q.den`. -/
def rexp (q : ℚ) : ℤ :=
  if 1 ≤ q then (log10 (⌊q⌋.toNat) : ℤ) else -(rexpAuxF q.den q : ℤ)

/-- Round `q` to three significant decimal digits (the value produced by
formatting with `QString::number(·, 'g', 3)` and reading the result back). -/
def roundSig3 (q : ℚ) : ℚ :=
  if q = 0 then 0
  else (⌊q / qpow10 (rexp q - 2) + 1 / 2⌋ : ℚ) * qpow10 (rexp q - 2)

/-- Function `convertToUnits` (downloadmanagement.cpp:16-27).  Returns the rounded
scaled value and the chosen unit name.  When the loop leaves `unitIndex`
equal to `units.size()`, the C++ expression `units[unitIndex]` reads past
the end of the 7-element `QStringList` — undefined behaviour — modelled as
`none`. -/
def convertToUnits (bytes : ℚ) : Option (ℚ × String) :=
  let r := convertLoop bytes 0
  match unitsList.get? r.2 with
  | some u => some (roundSig3 r.1, u)
  | none => none

/-! ## C++ `double` results (finite value, infinity or NaN)

`DownloadState::update` divides two nonnegative doubles; under IEEE-754
semantics `0.0/0.0` is NaN and `x/0.0` (`x > 0`) is `+inf`.  Finite values
are carried as rationals. -/

/-- Result of a C++ `double` computation on nonnegative operands. -/
inductive DubVal
  | nan
  | inf
  | val (q : ℚ)
deriving DecidableEq

/-- IEEE division for nonnegative operands: `0/0 = NaN`, `x/0 = +inf`. -/
def ddiv (a b : ℚ) : DubVal :=
  if b = 0 then (if a = 0 then DubVal.nan else DubVal.inf) else DubVal.val (a / b)

/-- Step `percent *= 100` (downloadmanagement.cpp:34). -/
def dmul100 : DubVal → DubVal
  | DubVal.nan => DubVal.nan
  | DubVal.inf => DubVal.inf
  | DubVal.val q => DubVal.val (q * 100)

/-- Step `percent = QString::number(percent, 'g', 3).toDouble()`
(downloadmanagement.cpp:35).  A finite value is rounded to three
significant digits; `"nan"`/`"inf"` round-trip through the string
conversion unchanged. -/
def dround3 : DubVal → DubVal
  | DubVal.nan => DubVal.nan
  | DubVal.inf => DubVal.inf
  | DubVal.val q => DubVal.val (roundSig3 q)

/-! ## Download engine model (external collaborator, see spec section 6)

The external `kiwix::Downloader` is a black box.  `getDownload` may throw
for an id the engine no longer knows (modelled as `none`); a handle
operation (`pauseDownload`/`cancelDownload`) may raise a `kiwix::AriaError`
indicating that the operation became invalid because the download already
completed (modelled as `EngineOutcome.ariaError`). -/

/-- Engine download status (`kiwix::Download::StatusResult`). -/
inductive DStatus
  | active
  | waiting
  | paused
  | error
  | complete
  | removed
  | unknown
deriving DecidableEq

/-- Function `downloadStatus2QString` (downloadmanagement.cpp:112-123). -/
def downloadStatus2QString : DStatus → String
  | DStatus.active => "active"
  | DStatus.waiting => "waiting"
  | DStatus.paused => "paused"
  | DStatus.error => "error"
  | DStatus.complete => "completed"
  | DStatus.removed => "removed"
  | DStatus.unknown => "unknown"

/-- A download handle as exposed by the engine (fields are the getter
results after `updateStatus(true)`). -/
structure DownloadHandle where
  status : DStatus
  completedLength : Nat
  totalLength : Nat
  downloadSpeed : Nat
  path : String
deriving DecidableEq

/-- Outcome of a handle operation (`pauseDownload` / `cancelDownload`):
either it succeeds, or the engine raises a `kiwix::AriaError` because the
download completed in the meantime. -/
inductive EngineOutcome
  | ok
  | ariaError
deriving DecidableEq

/-- The external download engine (`kiwix::Downloader`). -/
structure Downloader where
  /-- Call `getDownload(did)`; `none` models the engine throwing because the
  download id is no longer known to it. -/
  getDownload : String → Option DownloadHandle
  /-- outcome of `handle->pauseDownload()` for a given download id -/
  pauseOutcome : String → EngineOutcome
  /-- outcome of `handle->cancelDownload()` for a given download id -/
  cancelOutcome : String → EngineOutcome
  /-- Call `startDownload(url, options)`; `some did` on success, `none` models
  any exception raised by the engine's start call. -/
  start : String → List (String × String) → Option String

/-- Commands actually issued to the engine by an operation (used to state
"issues a pause only if the status is active"). -/
inductive EngineCmd
  | pause (did : String)
  | resume (did : String)
  | cancel (did : String)
deriving DecidableEq

/-! ## Books and the library view used by DownloadManager -/

/-- The fields of `kiwix::Book` that the download manager reads. -/
structure Book where
  id : String
  downloadId : String
  size : Nat
  url : String
deriving DecidableEq

/-- Lookup `mp_library->getBookById(bookId)`; `none` models the lookup throwing
`std::out_of_range` for an unknown book id. -/
def getBookById (books : List Book) (bookId : String) : Option Book :=
  books.find? (fun b => b.id == bookId)

/-! ## Download state snapshots and the download registry -/

/-- A human-readable size/speed text as produced by `convertToUnits`:
initially unset (empty `QString`), or a rounded value with a unit name and
a suffix (`""` or `"/s"`), or undefined when `convertToUnits` read past the
end of its unit list. -/
inductive SizeText
  | unset
  | sized (value : ℚ) (unit : String) (suffix : String)
  | undef
deriving DecidableEq

/-- Structure `DownloadState` (declared in downloadmanagement.h, populated in
downloadmanagement.cpp:31-40). -/
structure DownloadState where
  progress : DubVal
  completedLength : SizeText
  downloadSpeed : SizeText
  paused : Bool
deriving DecidableEq

/-- Modelled from the spec: a "fresh (unpopulated) snapshot".  The
`DownloadState` default constructor lives in downloadmanagement.h, which is
not part of the sources; per the spec the snapshot starts with no progress
data and not paused. -/
def DownloadState.initial : DownloadState :=
  { progress := DubVal.val 0
  , completedLength := SizeText.unset
  , downloadSpeed := SizeText.unset
  , paused := false }

/-- The per-download info map assembled by `getDownloadInfo`
(downloadmanagement.cpp:127-140); values are strings in C++, carried here
with their parsed types. -/
structure DownloadInfo where
  status : DStatus
  completedLength : Nat
  totalLength : Nat
  downloadSpeed : Nat
  path : String
deriving DecidableEq

/-- Attach the unit suffix to a `convertToUnits` result. -/
def sizeTextOf : Option (ℚ × String) → String → SizeText
  | some (v, u), suffix => SizeText.sized v u suffix
  | none, _ => SizeText.undef

/-- The percent computation of `DownloadState::update`
(downloadmanagement.cpp:33-35). -/
def percentOf (completed total : ℚ) : DubVal :=
  dround3 (dmul100 (ddiv completed total))

/-- Method `DownloadState::update` (downloadmanagement.cpp:31-40).  The method
overwrites every field of `*this`, so the previous state is ignored. -/
def DownloadState.update (_self : DownloadState) (info : DownloadInfo) : DownloadState :=
  { progress := percentOf (info.completedLength : ℚ) (info.totalLength : ℚ)
  , completedLength := sizeTextOf (convertToUnits (info.completedLength : ℚ)) ""
  , downloadSpeed := sizeTextOf (convertToUnits (info.downloadSpeed : ℚ)) "/s"
  , paused := downloadStatus2QString info.status == "paused" }

/-- The download registry `m_downloads`: book id to latest snapshot. -/
abbrev DownloadRegistry := List (String × DownloadState)

/-- Operation `m_downloads.set(bookId, snapshot)` (insert or replace). -/
def regSet (reg : DownloadRegistry) (k : String) (v : DownloadState) : DownloadRegistry :=
  (k, v) :: reg.filter (fun p => p.1 ≠ k)

/-- Operation `m_downloads.remove(bookId)`. -/
def regRemove (reg : DownloadRegistry) (k : String) : DownloadRegistry :=
  reg.filter (fun p => p.1 ≠ k)

/-- Operation `m_downloads.keys()`. -/
def regKeys (reg : DownloadRegistry) : List String :=
  reg.map Prod.fst

/-- Operation `m_downloads.value(bookId)`. -/
def regGet (reg : DownloadRegistry) (k : String) : Option DownloadState :=
  (reg.find? (fun p => p.1 == k)).map Prod.snd

/-- Method `DownloadManager::removeDownload` (downloadmanagement.cpp:260-263). -/
def removeDownload (reg : DownloadRegistry) (bookId : String) : DownloadRegistry :=
  regRemove reg bookId

/-! ## The poll cycle (`DownloadManager::updateDownloads`,
downloadmanagement.cpp:94-107) -/

/-- Function `getDownloadInfo` (downloadmanagement.cpp:127-140).  Any exception in
the book lookup, the `getDownload` call or `updateStatus` propagates out
(caught by the caller's `catch (...)`), modelled as `none`. -/
def getDownloadInfo (books : List Book) (dl : Downloader) (bookId : String) :
    Option DownloadInfo :=
  match getBookById books bookId with
  | none => none
  | some b =>
    match dl.getDownload b.downloadId with
    | none => none
    | some d =>
      some { status := d.status
           , completedLength := d.completedLength
           , totalLength := d.totalLength
           , downloadSpeed := d.downloadSpeed
           , path := d.path }

/-- Observer notifications emitted by the poll cycle. -/
inductive DMEvent
  | downloadUpdated (bookId : String) (info : DownloadInfo)
  | downloadDisappeared (bookId : String)
deriving DecidableEq

/-- The book id an event is about. -/
def DMEvent.bookId : DMEvent → String
  | DMEvent.downloadUpdated b _ => b
  | DMEvent.downloadDisappeared b => b

/-- Modelled from the spec: the slot connected to the
`downloadDisappeared` signal is outside these sources; per the spec the
coordinator "drops tracking for that id" when the signal fires. -/
def handleDownloadDisappeared (reg : DownloadRegistry) (bookId : String) :
    DownloadRegistry :=
  removeDownload reg bookId

/-- Modelled from the spec: the slot connected to the `downloadUpdated`
signal is outside these sources; per the spec the coordinator publishes an
updated snapshot for the id, built via `DownloadState::update`. -/
def handleDownloadUpdated (reg : DownloadRegistry) (bookId : String)
    (info : DownloadInfo) : DownloadRegistry :=
  match regGet reg bookId with
  | some s => regSet reg bookId (s.update info)
  | none => reg

/-- The `for (bookId : m_downloads.keys())` loop of `updateDownloads`:
query each tracked id; on failure emit `downloadDisappeared` (whose handler
drops the id), otherwise emit `downloadUpdated` (whose handler republishes
the snapshot). -/
def updateDownloadsGo (books : List Book) (dl : Downloader) :
    List String → DownloadRegistry → DownloadRegistry × List DMEvent
  | [], reg => (reg, [])
  | k :: rest, reg =>
    match getDownloadInfo books dl k with
    | none =>
      let reg' := handleDownloadDisappeared reg k
      let r := updateDownloadsGo books dl rest reg'
      (r.1, DMEvent.downloadDisappeared k :: r.2)
    | some info =>
      let reg' := handleDownloadUpdated reg k info
      let r := updateDownloadsGo books dl rest reg'
      (r.1, DMEvent.downloadUpdated k info :: r.2)

/-- One poll cycle: `DownloadManager::updateDownloads`
(downloadmanagement.cpp:94-107).  The ids queried during the cycle are
exactly `regKeys reg`. -/
def updateDownloads (books : List Book) (dl : Downloader)
    (reg : DownloadRegistry) : DownloadRegistry × List DMEvent :=
  updateDownloadsGo books dl (regKeys reg) reg

/-! ## Error taxonomy (spec section 7) -/

/-- User-visible error kinds raised by this layer.  The three storage
errors share the `download-storage-error` title but carry distinct
messages, hence distinct kinds.  `engineFailure` stands for an engine
exception that propagates uncaught (no local handling). -/
inductive KError
  | downloadUnavailable
  | storageDirMissing
  | storageDirNotWritable
  | storageInsufficientSpace
  | invalidArchive
  | notFound
  | engineFailure
deriving DecidableEq

/-! ## startDownload (downloadmanagement.cpp:151-199) -/

/-- The state of the target directory as observed through `QFileInfo` and
`QStorageInfo`; `bytesAvailable = -1` models `QStorageInfo` failing to
determine the free space. -/
structure StorageState where
  isDir : Bool
  isWritable : Bool
  bytesAvailable : Int
deriving DecidableEq

/-- The C++ cast `(unsigned long long) bytesAvailable` (a `qint64`). -/
def ullCast (x : Int) : Nat := (x % (2 ^ 64 : Int)).toNat

/-- Function `checkThatBookCanBeSaved` (downloadmanagement.cpp:151-172): directory
missing, directory not writable, then insufficient (or undeterminable)
free space, in that order; `none` when all checks pass. -/
def checkThatBookCanBeSaved (book : Book) (storage : StorageState) : Option KError :=
  if !storage.isDir then some KError.storageDirMissing
  else if !storage.isWritable then some KError.storageDirNotWritable
  else if storage.bytesAvailable = -1 ∨ book.size > ullCast storage.bytesAvailable then
    some KError.storageInsufficientSpace
  else none

/-- Method `DownloadManager::startDownload` (downloadmanagement.cpp:177-199).
`dl = none` models a null `mp_downloader` (downloading functionality
unavailable).  Returns the result together with the registry after the
call; every failure path leaves the registry untouched, the success path
registers a fresh snapshot under the book id after the engine accepted the
download. -/
def startDownload (dl : Option Downloader) (storage : StorageState)
    (reg : DownloadRegistry) (book : Book) (downloadDirPath : String) :
    Except KError String × DownloadRegistry :=
  match dl with
  | none => (Except.error KError.downloadUnavailable, reg)
  | some d =>
    match checkThatBookCanBeSaved book storage with
    | some e => (Except.error e, reg)
    | none =>
      match d.start book.url [("dir", downloadDirPath)] with
      | none => (Except.error KError.downloadUnavailable, reg)
      | some downloadId =>
        (Except.ok downloadId, regSet reg book.id DownloadState.initial)

/-! ## pauseDownload / cancelDownload (downloadmanagement.cpp:201-258) -/

/-- Method `DownloadManager::pauseDownload` (downloadmanagement.cpp:201-225).
Returns the thrown error (if any), the registry after the call (the method
never touches `m_downloads`), and the commands issued to the engine.  A
`kiwix::AriaError` raised by the engine's pause call is caught and
swallowed; a failing `getDownload` propagates. -/
def pauseDownload (books : List Book) (dl : Downloader) (reg : DownloadRegistry)
    (bookId : String) : Except KError Unit × DownloadRegistry × List EngineCmd :=
  match getBookById books bookId with
  | none => (Except.error KError.notFound, reg, [])
  | some b =>
    if b.downloadId = "" then
      -- completion raced ahead of the pause request: benign no-op
      (Except.ok (), reg, [])
    else
      match dl.getDownload b.downloadId with
      | none => (Except.error KError.engineFailure, reg, [])
      | some d =>
        if d.status = DStatus.active then
          match dl.pauseOutcome b.downloadId with
          | EngineOutcome.ok => (Except.ok (), reg, [EngineCmd.pause b.downloadId])
          | EngineOutcome.ariaError =>
            -- download completed before the pause was handled: swallowed
            (Except.ok (), reg, [EngineCmd.pause b.downloadId])
        else (Except.ok (), reg, [])

/-- Method `DownloadManager::cancelDownload` (downloadmanagement.cpp:236-258).
Returns `ok false` on an empty download id or a completion-raced
`kiwix::AriaError`, `ok true` when the engine accepted the cancellation;
a failing `getDownload` (outside the `try` block) propagates.  The method
never touches `m_downloads`. -/
def cancelDownload (books : List Book) (dl : Downloader) (reg : DownloadRegistry)
    (bookId : String) : Except KError Bool × DownloadRegistry × List EngineCmd :=
  match getBookById books bookId with
  | none => (Except.error KError.notFound, reg, [])
  | some b =>
    if b.downloadId = "" then
      (Except.ok false, reg, [])
    else
      match dl.getDownload b.downloadId with
      | none => (Except.error KError.engineFailure, reg, [])
      | some _ =>
        match dl.cancelOutcome b.downloadId with
        | EngineOutcome.ok => (Except.ok true, reg, [EngineCmd.cancel b.downloadId])
        | EngineOutcome.ariaError =>
          (Except.ok false, reg, [EngineCmd.cancel b.downloadId])

/-! ## Library catalog (library.cpp) -/

/-- The fields of a catalog entry relevant to library.cpp: the book id and
the archive file path. -/
structure LibBook where
  id : String
  path : String
deriving DecidableEq

/-- The `Library` state: the in-memory catalog (`m_library`'s books), the
recorded monitored-directory file set (`m_monitorDirZims`), and counters
for `save()` calls and `booksChanged()` notifications. -/
structure LibState where
  books : List LibBook
  monitorDirZims : List String
  saveCount : Nat
  booksChangedCount : Nat
deriving DecidableEq

/-- Lookup `m_library.getBookByPath(path)`; `none` models the lookup throwing
`std::out_of_range`. -/
def getBookByPath (books : List LibBook) (p : String) : Option LibBook :=
  books.find? (fun b => b.path == p)

/-- Operation `kiwix::Library::addBook`: insert, replacing any entry with the same
book id. -/
def libAddBook (books : List LibBook) (b : LibBook) : List LibBook :=
  b :: books.filter (fun x => x.id ≠ b.id)

/-- Method `Library::removeBookFromLibraryById` (library.cpp:106-108). -/
def removeBookFromLibraryById (books : List LibBook) (bookId : String) :
    List LibBook :=
  books.filter (fun x => x.id ≠ bookId)

/-- Method `Library::openBookFromPath` (library.cpp:44-59).  `pathId p` is the
book id that `kiwix::Manager::addBookFromPathAndGetId` extracts from the
archive at `p` (`""` when the file is not a valid archive; in that case the
manager registers nothing).  Returns the result and the state after the
call. -/
def openBookFromPath (pathId : String → String) (st : LibState)
    (zimPath : String) : Except KError String × LibState :=
  match getBookByPath st.books zimPath with
  | some book => (Except.ok book.id, st)
  | none =>
    let id := pathId zimPath
    if id = "" then (Except.error KError.invalidArchive, st)
    else
      (Except.ok id,
       { st with
           books := libAddBook st.books { id := id, path := zimPath }
         , saveCount := st.saveCount + 1
         , booksChangedCount := st.booksChangedCount + 1 })

/-! ## Directory reconciliation (`Library::loadMonitorDir`,
library.cpp:146-171) -/

/-- Expression `(newDir - oldDir).values()`: the QSet difference of the new directory
listing against the recorded set (library.cpp:158). -/
def addedZims (newDirEntries oldEntries : List String) : List String :=
  newDirEntries.dedup.filter (fun p => decide (p ∉ oldEntries.dedup))

/-- Expression `(oldDir - newDir).values()` (library.cpp:159). -/
def removedZims (newDirEntries oldEntries : List String) : List String :=
  oldEntries.dedup.filter (fun p => decide (p ∉ newDirEntries.dedup))

/-- Function `kiwix::Manager::addBookFromPath` as used in the add loop
(library.cpp:163-165): registers a book for the archive at `p` when the
engine can extract an id from it, otherwise adds nothing. -/
def addBookFromPath (pathId : String → String) (books : List LibBook)
    (p : String) : List LibBook :=
  if pathId p = "" then books else libAddBook books { id := pathId p, path := p }

/-- The remove loop of `loadMonitorDir` (library.cpp:166-168): for each
removed path, look the book up by path (`getBookByPath` throws
`std::out_of_range` when absent, modelled as `none` for the whole loop)
and remove it from the catalog by its id. -/
def removeBooksAtPaths (books : List LibBook) :
    List String → Option (List LibBook)
  | [] => some books
  | p :: rest =>
    match getBookByPath books p with
    | none => none
    | some b => removeBooksAtPaths (removeBookFromLibraryById books b.id) rest

/-- Method `Library::loadMonitorDir` (library.cpp:146-171).  `newDirEntries` is
the directory listing (`dir.entryList({"*.zim"})`, each entry already
prefixed with the directory path).  Computes both set differences, replaces
the recorded set, adds a book per added file, removes the book of each
removed file, then notifies observers and persists.  `none` models the
uncaught `std::out_of_range` when a removed path has no catalog entry. -/
def loadMonitorDir (pathId : String → String) (newDirEntries : List String)
    (st : LibState) : Option LibState :=
  let newDirVals := newDirEntries.dedup
  let added := addedZims newDirEntries st.monitorDirZims
  let removed := removedZims newDirEntries st.monitorDirZims
  let books1 := added.foldl (addBookFromPath pathId) st.books
  match removeBooksAtPaths books1 removed with
  | none => none
  | some books2 =>
    some { books := books2
         , monitorDirZims := newDirVals
         , saveCount := st.saveCount + 1
         , booksChangedCount := st.booksChangedCount + 1 }

/-! ## Locking in `loadMonitorDir` (library.cpp:148-149)

`loadMonitorDir` constructs a `QMutex` as a local variable and locks it for
the scope of the call.  Mutex object identity is modelled by a natural
number; because the mutex is function-local, each invocation locks its own
fresh object. -/

/-- Actions performed by one reconciliation pass, as far as locking and
the catalog are concerned. -/
inductive LmAct
  | lock (m : Nat)
  | unlock (m : Nat)
  | readCatalog
  | writeCatalog
deriving DecidableEq

/-- One step of a schedule: which invocation (thread) performs which
action. -/
structure LmStep where
  tid : Nat
  act : LmAct
deriving DecidableEq

/-- The sequence of locking/catalog actions performed by one
`loadMonitorDir` invocation: lock the mutex, read the catalog and compute
the diff, write the catalog, unlock (QMutexLocker scope end). -/
def loadMonitorDirTrace (tid : Nat) (mutex : Nat) : List LmStep :=
  [ { tid := tid, act := LmAct.lock mutex }
  , { tid := tid, act := LmAct.readCatalog }
  , { tid := tid, act := LmAct.writeCatalog }
  , { tid := tid, act := LmAct.unlock mutex } ]

/-- The mutex object a given invocation locks, as the code stands: a fresh
function-local `QMutex` per invocation (library.cpp:148), so invocation
`tid` locks its own object `tid`. -/
def localMutex (tid : Nat) : Nat := tid

/-- The mutex a given invocation would lock if the mutex were shared
(a member of `Library`): one common object. -/
def sharedMutex (_tid : Nat) : Nat := 0

/-- A schedule is valid when every executed `lock` found its mutex free
(a blocked thread cannot proceed); `held` is the set of locked mutexes. -/
def schedValid (held : List Nat) : List LmStep → Bool
  | [] => true
  | s :: rest =>
    match s.act with
    | LmAct.lock m => !held.contains m && schedValid (m :: held) rest
    | LmAct.unlock m => schedValid (held.erase m) rest
    | _ => schedValid held rest

/-- Predicate stating that `σ` is an interleaving of the two per-thread sequences. -/
inductive Interleaving : List LmStep → List LmStep → List LmStep → Prop
  | nil : Interleaving [] [] []
  | left {a as bs cs} : Interleaving as bs cs → Interleaving (a :: as) bs (a :: cs)
  | right {b as bs cs} : Interleaving as bs cs → Interleaving as (b :: bs) (b :: cs)

/-- The steps a schedule executes strictly between `tid`'s `lock` and its
`unlock` (its critical section). -/
def stepsDuringCS (σ : List LmStep) (t : Nat) : List LmStep :=
  ((σ.dropWhile (fun s =>
      !(s.tid == t && (match s.act with | LmAct.lock _ => true | _ => false)))).drop 1).takeWhile
    (fun s => !(s.tid == t && (match s.act with | LmAct.unlock _ => true | _ => false)))

/-- A schedule of two concurrent `loadMonitorDir` invocations in which
thread 2's whole read-diff-write sequence runs inside thread 1's critical
section. -/
def overlappingSched : List LmStep :=
  [ { tid := 1, act := LmAct.lock (localMutex 1) }
  , { tid := 1, act := LmAct.readCatalog }
  , { tid := 2, act := LmAct.lock (localMutex 2) }
  , { tid := 2, act := LmAct.readCatalog }
  , { tid := 2, act := LmAct.writeCatalog }
  , { tid := 2, act := LmAct.unlock (localMutex 2) }
  , { tid := 1, act := LmAct.writeCatalog }
  , { tid := 1, act := LmAct.unlock (localMutex 1) } ]

/-- The same schedule with a shared mutex instead of the per-invocation
local one. -/
def overlappingSchedShared : List LmStep :=
  [ { tid := 1, act := LmAct.lock (sharedMutex 1) }
  , { tid := 1, act := LmAct.readCatalog }
  , { tid := 2, act := LmAct.lock (sharedMutex 2) }
  , { tid := 2, act := LmAct.readCatalog }
  , { tid := 2, act := LmAct.writeCatalog }
  , { tid := 2, act := LmAct.unlock (sharedMutex 2) }
  , { tid := 1, act := LmAct.writeCatalog }
  , { tid := 1, act := LmAct.unlock (sharedMutex 1) } ]

/-! ## Concrete instances used to exercise the theorems -/

/-- An engine whose start call always succeeds with id `"did-1"` and whose
lookups fail. -/
def dlStartOk : Downloader :=
  { getDownload := fun _ => none
  , pauseOutcome := fun _ => EngineOutcome.ok
  , cancelOutcome := fun _ => EngineOutcome.ok
  , start := fun _ _ => some "did-1" }

/-- The book of the spec's storage scenario: size 1,000,000,000 bytes. -/
def bookB : Book :=
  { id := "B", downloadId := "", size := 1000000000, url := "http://x/B.zim" }

/-- A writable directory with 2,000,000,000 bytes free. -/
def storageOk : StorageState :=
  { isDir := true, isWritable := true, bytesAvailable := 2000000000 }

/-- A writable directory with only 500,000,000 bytes free. -/
def storageLow : StorageState :=
  { isDir := true, isWritable := true, bytesAvailable := 500000000 }

/-- A handle in active state. -/
def handleActive : DownloadHandle :=
  { status := DStatus.active, completedLength := 10, totalLength := 100
  , downloadSpeed := 5, path := "/p" }

/-- Library with one completed book (empty download id) and one book with
an in-flight download `"d2"`. -/
def libPause : List Book :=
  [ { id := "b1", downloadId := "", size := 0, url := "" }
  , { id := "b2", downloadId := "d2", size := 0, url := "" } ]

/-- Engine that knows download `"d2"` (active) and raises an AriaError on
every pause call. -/
def dlPause : Downloader :=
  { getDownload := fun s => if s = "d2" then some handleActive else none
  , pauseOutcome := fun _ => EngineOutcome.ariaError
  , cancelOutcome := fun _ => EngineOutcome.ok
  , start := fun _ _ => none }

/-- Library with one book whose download id `"d"` is non-empty. -/
def libCancel : List Book :=
  [ { id := "b", downloadId := "d", size := 0, url := "" } ]

/-- Engine that no longer knows any download id (`getDownload` throws). -/
def dlGone : Downloader :=
  { getDownload := fun _ => none
  , pauseOutcome := fun _ => EngineOutcome.ok
  , cancelOutcome := fun _ => EngineOutcome.ok
  , start := fun _ _ => none }

/-- Engine that knows download `"d"` but reports a completion race on
cancellation. -/
def dlCancelRace : Downloader :=
  { getDownload := fun s => if s = "d" then some handleActive else none
  , pauseOutcome := fun _ => EngineOutcome.ok
  , cancelOutcome := fun _ => EngineOutcome.ariaError
  , start := fun _ _ => none }

/-- Library for the poll-cycle scenario: only `"b2"` exists. -/
def libPoll : List Book :=
  [ { id := "b2", downloadId := "d2", size := 0, url := "" } ]

/-- Engine for the poll-cycle scenario: only `"d2"` is known. -/
def dlPoll : Downloader :=
  { getDownload := fun s => if s = "d2" then some handleActive else none
  , pauseOutcome := fun _ => EngineOutcome.ok
  , cancelOutcome := fun _ => EngineOutcome.ok
  , start := fun _ _ => none }

/-- Registry tracking `"b1"` (stale) and `"b2"`. -/
def regPoll : DownloadRegistry :=
  [("b1", DownloadState.initial), ("b2", DownloadState.initial)]

/-- An empty library state. -/
def stOpen : LibState :=
  { books := [], monitorDirZims := [], saveCount := 0, booksChangedCount := 0 }

/-- The library state after opening `"a.zim"` (engine id `"X"`) on
`stOpen`. -/
def stOpen1 : LibState :=
  { books := [{ id := "X", path := "a.zim" }]
  , monitorDirZims := [], saveCount := 1, booksChangedCount := 1 }

/-- The spec's reconciliation example: recorded set `{a,b,c}` with one
consistent catalog book per path (engine ids equal paths). -/
def stMon : LibState :=
  { books := [ { id := "a", path := "a" }, { id := "b", path := "b" }
             , { id := "c", path := "c" } ]
  , monitorDirZims := ["a", "b", "c"], saveCount := 0, booksChangedCount := 0 }

/-- The spec example's new directory listing `{a,c,d}`. -/
def listingMon : List String := ["a", "c", "d"]

/-- The `DownloadState::update` input of the C8 scenario: 512 of 1024
bytes done. -/
def infoHalf : DownloadInfo :=
  { status := DStatus.active, completedLength := 512, totalLength := 1024
  , downloadSpeed := 0, path := "" }

/-- The library state after reconciling `stMon` against `listingMon`:
book `d` added, book `b` removed, recorded set replaced by `{a,c,d}`,
catalog persisted and observers notified once each. -/
def stMonRes : LibState :=
  { books := [ { id := "d", path := "d" }, { id := "a", path := "a" }
             , { id := "c", path := "c" } ]
  , monitorDirZims := ["a", "c", "d"], saveCount := 1, booksChangedCount := 1 }

/-! # Theorems -/

/-- C1: the claim says that for every byte count the function selects a
unit within the fixed 7-element unit list.  The code's loop guard is
`unitIndex < units.size()` instead of `unitIndex < units.size() - 1`, so at
`bytes = 1024^7` the loop leaves `unitIndex = 7` and `units[unitIndex]`
reads past the end of the 7-element list (undefined behaviour) instead of
rendering with the largest unit `"EB"`. -/
theorem C1_convertToUnits_out_of_bounds :
    convertLoop ((1024 : ℚ) ^ 7) 0 = (1, 7) ∧
    unitsList.length = 7 ∧
    unitsList.get? 7 = none ∧
    convertToUnits ((1024 : ℚ) ^ 7) = none := by
  refine ⟨?_, rfl, rfl, ?_⟩
  · norm_num [convertLoop, convertLoopF, unitsList]
  · norm_num [convertToUnits, convertLoop, convertLoopF, unitsList]

/-- C9: the claim says concurrent reconciliation passes are serialized by
a mutual-exclusion lock shared with other library mutators.  The code
locks a mutex constructed as a local variable of `loadMonitorDir`, so two
invocations lock two distinct objects: a schedule in which thread 2's
whole read-diff-write sequence runs inside thread 1's critical section is
a valid interleaving under the code's locking, while the same schedule
with a shared mutex is rejected. -/
theorem C9_local_mutex_does_not_serialize :
    Interleaving (loadMonitorDirTrace 1 (localMutex 1))
      (loadMonitorDirTrace 2 (localMutex 2)) overlappingSched ∧
    schedValid [] overlappingSched = true ∧
    { tid := 2, act := LmAct.readCatalog } ∈ stepsDuringCS overlappingSched 1 ∧
    { tid := 2, act := LmAct.writeCatalog } ∈ stepsDuringCS overlappingSched 1 ∧
    Interleaving (loadMonitorDirTrace 1 (sharedMutex 1))
      (loadMonitorDirTrace 2 (sharedMutex 2)) overlappingSchedShared ∧
    schedValid [] overlappingSchedShared = false := by
  refine ⟨?_, by decide, by decide, by decide, ?_, by decide⟩
  · simp only [loadMonitorDirTrace, overlappingSched, localMutex]
    exact Interleaving.left (Interleaving.left (Interleaving.right
      (Interleaving.right (Interleaving.right (Interleaving.right
        (Interleaving.left (Interleaving.left Interleaving.nil)))))))
  · simp only [loadMonitorDirTrace, overlappingSchedShared, sharedMutex]
    exact Interleaving.left (Interleaving.left (Interleaving.right
      (Interleaving.right (Interleaving.right (Interleaving.right
        (Interleaving.left (Interleaving.left Interleaving.nil)))))))

/-- C5: `startDownload` fails with `DownloadUnavailable` when downloading
functionality is unavailable; the three storage preconditions fail with
distinct error kinds, checked in the order directory-missing,
not-writable, insufficient-space; an engine exception on start is
normalized to `DownloadUnavailable`; on success the registry gains a fresh
unpopulated snapshot under the book id and the engine's download id is
returned. -/
theorem C5_startDownload_checks_and_registers
    (dl : Downloader) (storage : StorageState) (reg : DownloadRegistry)
    (book : Book) (dir : String) :
    (checkThatBookCanBeSaved book storage = some KError.storageDirMissing ↔
      storage.isDir = false) ∧
    (checkThatBookCanBeSaved book storage = some KError.storageDirNotWritable ↔
      storage.isDir = true ∧ storage.isWritable = false) ∧
    (checkThatBookCanBeSaved book storage = some KError.storageInsufficientSpace ↔
      storage.isDir = true ∧ storage.isWritable = true ∧
      (storage.bytesAvailable = -1 ∨ book.size > ullCast storage.bytesAvailable)) ∧
    (startDownload none storage reg book dir =
      (Except.error KError.downloadUnavailable, reg)) ∧
    (∀ e, checkThatBookCanBeSaved book storage = some e →
      startDownload (some dl) storage reg book dir = (Except.error e, reg)) ∧
    (checkThatBookCanBeSaved book storage = none →
      dl.start book.url [("dir", dir)] = none →
      startDownload (some dl) storage reg book dir =
        (Except.error KError.downloadUnavailable, reg)) ∧
    (∀ did, checkThatBookCanBeSaved book storage = none →
      dl.start book.url [("dir", dir)] = some did →
      startDownload (some dl) storage reg book dir =
        (Except.ok did, regSet reg book.id DownloadState.initial)) := by
  refine ⟨?_, ?_, ?_, rfl, ?_, ?_, ?_⟩
  · cases hd : storage.isDir <;> cases hw : storage.isWritable <;>
      by_cases hs : storage.bytesAvailable = -1 ∨
        book.size > ullCast storage.bytesAvailable <;>
      simp [checkThatBookCanBeSaved, hd, hw, hs]
  · cases hd : storage.isDir <;> cases hw : storage.isWritable <;>
      by_cases hs : storage.bytesAvailable = -1 ∨
        book.size > ullCast storage.bytesAvailable <;>
      simp [checkThatBookCanBeSaved, hd, hw, hs]
  · cases hd : storage.isDir <;> cases hw : storage.isWritable <;>
      by_cases hs : storage.bytesAvailable = -1 ∨
        book.size > ullCast storage.bytesAvailable <;>
      simp [checkThatBookCanBeSaved, hd, hw, hs]
  · intro e he; simp [startDownload, he]
  · intro hc hs; simp [startDownload, hc, hs]
  · intro did hc hs; simp [startDownload, hc, hs]

/-- C5 witness: the spec's storage scenario — a 1,000,000,000-byte book
into a directory with 2,000,000,000 free bytes succeeds and registers a
fresh snapshot; the same call with 500,000,000 free bytes fails with the
insufficient-space storage error. -/
theorem C5_startDownload_checks_and_registers_witness :
    checkThatBookCanBeSaved bookB storageOk = none ∧
    dlStartOk.start bookB.url [("dir", "/dl")] = some "did-1" ∧
    startDownload (some dlStartOk) storageOk [] bookB "/dl" =
      (Except.ok "did-1", regSet [] bookB.id DownloadState.initial) ∧
    checkThatBookCanBeSaved bookB storageLow = some KError.storageInsufficientSpace ∧
    startDownload (some dlStartOk) storageLow [] bookB "/dl" =
      (Except.error KError.storageInsufficientSpace, []) :=
  ⟨rfl, rfl,
    (C5_startDownload_checks_and_registers dlStartOk storageOk []
      bookB "/dl").2.2.2.2.2.2 "did-1" rfl rfl,
    rfl,
    (C5_startDownload_checks_and_registers dlStartOk storageLow []
      bookB "/dl").2.2.2.2.1 KError.storageInsufficientSpace rfl⟩

/-- C10: `startDownload` is atomic on failure — every failing call leaves
the download registry unchanged; an entry is added only on the success
path after the engine accepted the download. -/
theorem C10_startDownload_atomic_on_failure
    (dl : Option Downloader) (storage : StorageState) (reg : DownloadRegistry)
    (book : Book) (dir : String) (e : KError)
    (h : (startDownload dl storage reg book dir).1 = Except.error e) :
    (startDownload dl storage reg book dir).2 = reg := by
  cases dl with
  | none => rfl
  | some d =>
    cases hc : checkThatBookCanBeSaved book storage with
    | some e' => simp [startDownload, hc]
    | none =>
      cases hs : d.start book.url [("dir", dir)] with
      | none => simp [startDownload, hc, hs]
      | some did => simp [startDownload, hc, hs] at h

/-- C10 witness: a failing call (downloader unavailable) leaves the empty
registry empty. -/
theorem C10_startDownload_atomic_on_failure_witness :
    (startDownload none storageOk [] bookB "/dl").1 =
      Except.error KError.downloadUnavailable ∧
    (startDownload none storageOk [] bookB "/dl").2 = [] :=
  ⟨rfl, C10_startDownload_atomic_on_failure none storageOk [] bookB "/dl"
    KError.downloadUnavailable rfl⟩

/-- C4: `pauseDownload` is a benign no-op (no exception, no registry
change, no engine command) when the book's download id is empty; with a
non-empty id it issues the pause command only when the engine-reported
status is active, and then it returns without error whatever the engine's
pause outcome — in particular a completion-raced `AriaError` is swallowed;
the registry is never modified. -/
theorem C4_pauseDownload_races_and_guards
    (books : List Book) (dl : Downloader) (reg : DownloadRegistry)
    (bookId : String) (b : Book) (hb : getBookById books bookId = some b) :
    (b.downloadId = "" →
      pauseDownload books dl reg bookId = (Except.ok (), reg, [])) ∧
    (∀ d, b.downloadId ≠ "" → dl.getDownload b.downloadId = some d →
      d.status = DStatus.active →
      pauseDownload books dl reg bookId =
        (Except.ok (), reg, [EngineCmd.pause b.downloadId])) ∧
    (∀ d, b.downloadId ≠ "" → dl.getDownload b.downloadId = some d →
      d.status ≠ DStatus.active →
      pauseDownload books dl reg bookId = (Except.ok (), reg, [])) ∧
    ((pauseDownload books dl reg bookId).2.1 = reg) := by
  refine ⟨?_, ?_, ?_, ?_⟩
  · intro h; simp [pauseDownload, hb, h]
  · intro d hne hd hst
    cases ho : dl.pauseOutcome b.downloadId <;>
      simp [pauseDownload, hb, hne, hd, hst, ho]
  · intro d hne hd hst; simp [pauseDownload, hb, hne, hd, hst]
  · by_cases h : b.downloadId = ""
    · simp [pauseDownload, hb, h]
    · cases hd : dl.getDownload b.downloadId with
      | none => simp [pauseDownload, hb, h, hd]
      | some d =>
        by_cases hst : d.status = DStatus.active
        · cases ho : dl.pauseOutcome b.downloadId <;>
            simp [pauseDownload, hb, h, hd, hst, ho]
        · simp [pauseDownload, hb, h, hd, hst]

/-- C4 witness: pausing the completed book `"b1"` (empty download id) is a
no-op; pausing the active book `"b2"` issues the pause command and the
engine's AriaError is swallowed. -/
theorem C4_pauseDownload_races_and_guards_witness :
    getBookById libPause "b1" =
      some { id := "b1", downloadId := "", size := 0, url := "" } ∧
    pauseDownload libPause dlPause [] "b1" = (Except.ok (), [], []) ∧
    getBookById libPause "b2" =
      some { id := "b2", downloadId := "d2", size := 0, url := "" } ∧
    dlPause.pauseOutcome "d2" = EngineOutcome.ariaError ∧
    pauseDownload libPause dlPause [] "b2" =
      (Except.ok (), [], [EngineCmd.pause "d2"]) :=
  ⟨rfl,
   (C4_pauseDownload_races_and_guards libPause dlPause [] "b1"
     { id := "b1", downloadId := "", size := 0, url := "" } rfl).1 rfl,
   rfl, rfl,
   (C4_pauseDownload_races_and_guards libPause dlPause [] "b2"
     { id := "b2", downloadId := "d2", size := 0, url := "" } rfl).2.1
     handleActive (by decide) rfl rfl⟩

/-- C3 counterexample: the claim says `cancelDownload` returns `false`
exactly on an empty download id or a completion-raced engine error, and
`true` in every other case.  For the book `"b"` the download id `"d"` is
non-empty and no completion race occurs, yet the engine lookup
`getDownload` (which sits outside the `try` block) fails and the exception
propagates, so the call returns neither `true` nor `false`. -/
theorem C3_cancelDownload_counterexample :
    getBookById libCancel "b" =
      some { id := "b", downloadId := "d", size := 0, url := "" } ∧
    ("d" : String) ≠ "" ∧
    dlGone.getDownload "d" = none ∧
    (cancelDownload libCancel dlGone [] "b").1 =
      Except.error KError.engineFailure ∧
    (cancelDownload libCancel dlGone [] "b").1 ≠ Except.ok true ∧
    (cancelDownload libCancel dlGone [] "b").1 ≠ Except.ok false := by
  refine ⟨rfl, by decide, rfl, rfl, ?_, ?_⟩
  · intro h
    have h' : Except.error KError.engineFailure = Except.ok true := h
    exact Except.noConfusion h'
  · intro h
    have h' : Except.error KError.engineFailure = Except.ok false := h
    exact Except.noConfusion h'

/-- C3 (amended): `cancelDownload` returns `false` when the download id is
empty or the engine raises a completion-race error during cancellation;
when the engine's lookup of the non-empty download id fails, that error
propagates (no boolean is returned); in every other case it returns
`true`; and in no case does it remove the book's registry entry itself. -/
theorem C3_cancelDownload_amended
    (books : List Book) (dl : Downloader) (reg : DownloadRegistry)
    (bookId : String) (b : Book) (hb : getBookById books bookId = some b) :
    ((cancelDownload books dl reg bookId).2.1 = reg) ∧
    (b.downloadId = "" →
      cancelDownload books dl reg bookId = (Except.ok false, reg, [])) ∧
    (b.downloadId ≠ "" → dl.getDownload b.downloadId = none →
      cancelDownload books dl reg bookId =
        (Except.error KError.engineFailure, reg, [])) ∧
    (∀ d, b.downloadId ≠ "" → dl.getDownload b.downloadId = some d →
      dl.cancelOutcome b.downloadId = EngineOutcome.ariaError →
      cancelDownload books dl reg bookId =
        (Except.ok false, reg, [EngineCmd.cancel b.downloadId])) ∧
    (∀ d, b.downloadId ≠ "" → dl.getDownload b.downloadId = some d →
      dl.cancelOutcome b.downloadId = EngineOutcome.ok →
      cancelDownload books dl reg bookId =
        (Except.ok true, reg, [EngineCmd.cancel b.downloadId])) := by
  refine ⟨?_, ?_, ?_, ?_, ?_⟩
  · by_cases h : b.downloadId = ""
    · simp [cancelDownload, hb, h]
    · cases hd : dl.getDownload b.downloadId with
      | none => simp [cancelDownload, hb, h, hd]
      | some d =>
        cases ho : dl.cancelOutcome b.downloadId <;>
          simp [cancelDownload, hb, h, hd, ho]
  · intro h; simp [cancelDownload, hb, h]
  · intro hne hd; simp [cancelDownload, hb, hne, hd]
  · intro d hne hd ho; simp [cancelDownload, hb, hne, hd, ho]
  · intro d hne hd ho; simp [cancelDownload, hb, hne, hd, ho]

/-- C3 witness: cancelling the book `"b"` when the engine reports a
completion race yields `false` and leaves the (empty) registry
untouched. -/
theorem C3_cancelDownload_amended_witness :
    getBookById libCancel "b" =
      some { id := "b", downloadId := "d", size := 0, url := "" } ∧
    dlCancelRace.getDownload "d" = some handleActive ∧
    dlCancelRace.cancelOutcome "d" = EngineOutcome.ariaError ∧
    cancelDownload libCancel dlCancelRace [] "b" =
      (Except.ok false, [], [EngineCmd.cancel "d"]) :=
  ⟨rfl, rfl, rfl,
   (C3_cancelDownload_amended libCancel dlCancelRace [] "b"
     { id := "b", downloadId := "d", size := 0, url := "" } rfl).2.2.2.1
     handleActive (by decide) rfl rfl⟩

/-- C7: `openBookFromPath` is idempotent — a second call with the same
path returns the same book id and changes nothing; and when no book with
the path exists and the engine cannot extract a valid id (it returns the
empty id), the call fails with `InvalidArchive` and the state is
unchanged. -/
theorem C7_openBookFromPath_idempotent
    (pathId : String → String) (st : LibState) (p : String) :
    (∀ id st1, openBookFromPath pathId st p = (Except.ok id, st1) →
      openBookFromPath pathId st1 p = (Except.ok id, st1)) ∧
    (getBookByPath st.books p = none → pathId p = "" →
      openBookFromPath pathId st p = (Except.error KError.invalidArchive, st)) := by
  constructor
  · intro id st1 h
    cases hf : getBookByPath st.books p with
    | some book =>
      simp only [openBookFromPath, hf] at h
      obtain ⟨h1, h2⟩ := Prod.mk.injEq .. ▸ h
      obtain rfl : book.id = id := Except.ok.injEq .. ▸ h1
      subst h2
      simp only [openBookFromPath, hf]
    | none =>
      by_cases hid : pathId p = ""
      · simp [openBookFromPath, hf, hid] at h
      · simp only [openBookFromPath, hf, if_neg hid] at h
        obtain ⟨h1, h2⟩ := Prod.mk.injEq .. ▸ h
        obtain rfl : pathId p = id := Except.ok.injEq .. ▸ h1
        subst h2
        simp [openBookFromPath, getBookByPath, libAddBook]
  · intro hf hid
    simp [openBookFromPath, hf, hid]

/-- C7 witness: opening `"a.zim"` twice on an empty catalog returns the
engine id `"X"` both times, and the second call changes nothing. -/
theorem C7_openBookFromPath_idempotent_witness :
    openBookFromPath (fun _ => "X") stOpen "a.zim" = (Except.ok "X", stOpen1) ∧
    openBookFromPath (fun _ => "X") stOpen1 "a.zim" = (Except.ok "X", stOpen1) :=
  ⟨rfl,
   (C7_openBookFromPath_idempotent (fun _ => "X") stOpen "a.zim").1
     "X" stOpen1 rfl⟩

/-! ### Registry and poll-cycle lemmas (towards C2) -/

theorem not_mem_regKeys_regRemove_self (reg : DownloadRegistry) (k : String) :
    k ∉ regKeys (regRemove reg k) := by
  simp only [regKeys, regRemove, List.mem_map]
  rintro ⟨p, hp, rfl⟩
  simpa using (List.mem_filter.mp hp).2

theorem not_mem_regKeys_regRemove {reg : DownloadRegistry} {j k : String}
    (h : k ∉ regKeys reg) : k ∉ regKeys (regRemove reg j) := by
  simp only [regKeys, regRemove, List.mem_map] at *
  rintro ⟨p, hp, rfl⟩
  exact h ⟨p, List.mem_of_mem_filter hp, rfl⟩

theorem not_mem_regKeys_regSet {reg : DownloadRegistry} {j k : String}
    {v : DownloadState} (hne : k ≠ j) (h : k ∉ regKeys reg) :
    k ∉ regKeys (regSet reg j v) := by
  simp only [regKeys, regSet, List.map_cons, List.mem_cons] at *
  rintro (h1 | h2)
  · exact hne h1
  · obtain ⟨p, hp, rfl⟩ := List.mem_map.mp h2
    exact h (List.mem_map.mpr ⟨p, List.mem_of_mem_filter hp, rfl⟩)

theorem not_mem_regKeys_handleDownloadUpdated {reg : DownloadRegistry}
    {j k : String} {info : DownloadInfo} (hne : k ≠ j) (h : k ∉ regKeys reg) :
    k ∉ regKeys (handleDownloadUpdated reg j info) := by
  unfold handleDownloadUpdated
  cases regGet reg j with
  | none => exact h
  | some s => exact not_mem_regKeys_regSet hne h

theorem updateDownloadsGo_preserves_absent (books : List Book) (dl : Downloader)
    (k : String) (keys : List String) (reg : DownloadRegistry)
    (hq : getDownloadInfo books dl k = none) (h : k ∉ regKeys reg) :
    k ∉ regKeys (updateDownloadsGo books dl keys reg).1 := by
  induction keys generalizing reg with
  | nil => exact h
  | cons k' rest ih =>
    by_cases hk : k' = k
    · subst hk
      simp only [updateDownloadsGo, hq]
      exact ih _ (not_mem_regKeys_regRemove h)
    · cases hq' : getDownloadInfo books dl k' with
      | none =>
        simp only [updateDownloadsGo, hq']
        exact ih _ (not_mem_regKeys_regRemove h)
      | some info =>
        simp only [updateDownloadsGo, hq']
        exact ih _ (not_mem_regKeys_handleDownloadUpdated
          (fun hkk => hk hkk.symm) h)

theorem updateDownloadsGo_drops (books : List Book) (dl : Downloader)
    (k : String) (keys : List String) (reg : DownloadRegistry)
    (hq : getDownloadInfo books dl k = none) (h : k ∈ keys) :
    k ∉ regKeys (updateDownloadsGo books dl keys reg).1 := by
  induction keys generalizing reg with
  | nil => cases h
  | cons k' rest ih =>
    by_cases hk : k' = k
    · subst hk
      simp only [updateDownloadsGo, hq]
      exact updateDownloadsGo_preserves_absent books dl k' rest _ hq
        (not_mem_regKeys_regRemove_self reg k')
    · have hrest : k ∈ rest := by
        rcases List.mem_cons.mp h with h1 | h2
        · exact absurd h1.symm hk
        · exact h2
      cases hq' : getDownloadInfo books dl k' with
      | none =>
        simp only [updateDownloadsGo, hq']
        exact ih _ hrest
      | some info =>
        simp only [updateDownloadsGo, hq']
        exact ih _ hrest

theorem updateDownloadsGo_event_disappeared (books : List Book)
    (dl : Downloader) (k : String) (keys : List String)
    (reg : DownloadRegistry) (hq : getDownloadInfo books dl k = none)
    (h : k ∈ keys) :
    DMEvent.downloadDisappeared k ∈ (updateDownloadsGo books dl keys reg).2 := by
  induction keys generalizing reg with
  | nil => cases h
  | cons k' rest ih =>
    by_cases hk : k' = k
    · subst hk
      simp only [updateDownloadsGo, hq]
      exact List.mem_cons_self _ _
    · have hrest : k ∈ rest := by
        rcases List.mem_cons.mp h with h1 | h2
        · exact absurd h1.symm hk
        · exact h2
      cases hq' : getDownloadInfo books dl k' with
      | none =>
        simp only [updateDownloadsGo, hq']
        exact List.mem_cons_of_mem _ (ih _ hrest)
      | some info =>
        simp only [updateDownloadsGo, hq']
        exact List.mem_cons_of_mem _ (ih _ hrest)

theorem updateDownloadsGo_event_updated (books : List Book) (dl : Downloader)
    (k : String) (info : DownloadInfo) (keys : List String)
    (reg : DownloadRegistry) (hq : getDownloadInfo books dl k = some info)
    (h : k ∈ keys) :
    DMEvent.downloadUpdated k info ∈ (updateDownloadsGo books dl keys reg).2 := by
  induction keys generalizing reg with
  | nil => cases h
  | cons k' rest ih =>
    by_cases hk : k' = k
    · subst hk
      simp only [updateDownloadsGo, hq]
      exact List.mem_cons_self _ _
    · have hrest : k ∈ rest := by
        rcases List.mem_cons.mp h with h1 | h2
        · exact absurd h1.symm hk
        · exact h2
      cases hq' : getDownloadInfo books dl k' with
      | none =>
        simp only [updateDownloadsGo, hq']
        exact List.mem_cons_of_mem _ (ih _ hrest)
      | some info' =>
        simp only [updateDownloadsGo, hq']
        exact List.mem_cons_of_mem _ (ih _ hrest)

theorem updateDownloadsGo_events_about_keys (books : List Book)
    (dl : Downloader) (keys : List String) (reg : DownloadRegistry) :
    ∀ ev ∈ (updateDownloadsGo books dl keys reg).2, ev.bookId ∈ keys := by
  induction keys generalizing reg with
  | nil => intro ev hev; simp [updateDownloadsGo] at hev
  | cons k' rest ih =>
    intro ev hev
    cases hq' : getDownloadInfo books dl k' with
    | none =>
      simp only [updateDownloadsGo, hq'] at hev
      rcases List.mem_cons.mp hev with h1 | h2
      · subst h1; exact List.mem_cons_self _ _
      · exact List.mem_cons_of_mem _ (ih _ ev h2)
    | some info =>
      simp only [updateDownloadsGo, hq'] at hev
      rcases List.mem_cons.mp hev with h1 | h2
      · subst h1; exact List.mem_cons_self _ _
      · exact List.mem_cons_of_mem _ (ih _ ev h2)

/-- C2: for a tracked book id, a failing status query makes the poll cycle
emit `downloadDisappeared` for that id and drop it from tracking, so the
next poll cycle (which queries exactly the tracked keys) does not query it
again and produces no event about it; a successful query publishes an
updated snapshot event for the id instead. -/
theorem C2_poll_cycle_disappearance_and_update (books : List Book)
    (dl : Downloader) (reg : DownloadRegistry) (bookId : String)
    (hmem : bookId ∈ regKeys reg) :
    (getDownloadInfo books dl bookId = none →
      DMEvent.downloadDisappeared bookId ∈ (updateDownloads books dl reg).2 ∧
      bookId ∉ regKeys (updateDownloads books dl reg).1 ∧
      (∀ ev ∈ (updateDownloads books dl (updateDownloads books dl reg).1).2,
        ev.bookId ≠ bookId)) ∧
    (∀ info, getDownloadInfo books dl bookId = some info →
      DMEvent.downloadUpdated bookId info ∈ (updateDownloads books dl reg).2) := by
  constructor
  · intro hq
    refine ⟨updateDownloadsGo_event_disappeared books dl bookId _ reg hq hmem,
      updateDownloadsGo_drops books dl bookId _ reg hq hmem, ?_⟩
    intro ev hev heq
    have h1 := updateDownloadsGo_events_about_keys books dl
      (regKeys (updateDownloads books dl reg).1)
      (updateDownloads books dl reg).1 ev hev
    rw [heq] at h1
    exact updateDownloadsGo_drops books dl bookId _ reg hq hmem h1
  · intro info hq
    exact updateDownloadsGo_event_updated books dl bookId info _ reg hq hmem

/-- C2 witness: the registry tracks `"b1"` and `"b2"`; the engine no
longer knows `"b1"`'s download, so the cycle emits `downloadDisappeared`
for `"b1"` and stops tracking it, while `"b2"`'s successful query yields a
`downloadUpdated` event. -/
theorem C2_poll_cycle_disappearance_and_update_witness :
    ("b1" ∈ regKeys regPoll) ∧
    getDownloadInfo libPoll dlPoll "b1" = none ∧
    DMEvent.downloadDisappeared "b1" ∈ (updateDownloads libPoll dlPoll regPoll).2 ∧
    ("b1" ∉ regKeys (updateDownloads libPoll dlPoll regPoll).1) ∧
    getDownloadInfo libPoll dlPoll "b2" =
      some { status := DStatus.active, completedLength := 10, totalLength := 100
           , downloadSpeed := 5, path := "/p" } ∧
    DMEvent.downloadUpdated "b2"
      { status := DStatus.active, completedLength := 10, totalLength := 100
      , downloadSpeed := 5, path := "/p" } ∈
      (updateDownloads libPoll dlPoll regPoll).2 :=
  ⟨by simp [regKeys, regPoll], rfl,
   ((C2_poll_cycle_disappearance_and_update libPoll dlPoll regPoll "b1"
      (by simp [regKeys, regPoll])).1 rfl).1,
   ((C2_poll_cycle_disappearance_and_update libPoll dlPoll regPoll "b1"
      (by simp [regKeys, regPoll])).1 rfl).2.1,
   rfl,
   (C2_poll_cycle_disappearance_and_update libPoll dlPoll regPoll "b2"
      (by simp [regKeys, regPoll])).2
     { status := DStatus.active, completedLength := 10, totalLength := 100
     , downloadSpeed := 5, path := "/p" } rfl⟩

/-! ### Reconciliation lemmas (towards C6) -/

theorem mem_addedZims {newE oldE : List String} {x : String} :
    x ∈ addedZims newE oldE ↔ x ∈ newE ∧ x ∉ oldE := by
  simp [addedZims, List.mem_filter, List.mem_dedup]

theorem mem_removedZims {newE oldE : List String} {x : String} :
    x ∈ removedZims newE oldE ↔ x ∈ oldE ∧ x ∉ newE := by
  simp [removedZims, List.mem_filter, List.mem_dedup]

theorem nodup_addedZims (newE oldE : List String) :
    (addedZims newE oldE).Nodup :=
  (List.nodup_dedup newE).filter _

theorem mem_foldl_addBookFromPath_of_mem {pathId : String → String}
    {ps : List String} {books : List LibBook} {x : LibBook} (hx : x ∈ books)
    (hids : ∀ q ∈ ps, pathId q ≠ x.id) :
    x ∈ ps.foldl (addBookFromPath pathId) books := by
  induction ps generalizing books with
  | nil => exact hx
  | cons q rest ih =>
    simp only [List.foldl_cons]
    refine ih ?_ (fun r hr => hids r (List.mem_cons_of_mem _ hr))
    unfold addBookFromPath
    by_cases hq : pathId q = ""
    · simpa [hq] using hx
    · simp only [hq, if_neg, libAddBook, List.mem_cons]
      right
      exact List.mem_filter.mpr ⟨hx, by
        simpa using fun hEq => hids q (List.mem_cons_self _ _) hEq.symm⟩

theorem mem_foldl_addBookFromPath {pathId : String → String}
    {ps : List String} {books : List LibBook} {p : String} (hp : p ∈ ps)
    (hval : pathId p ≠ "")
    (hinjL : ∀ q ∈ ps, pathId q = pathId p → q = p) (hnd : ps.Nodup) :
    LibBook.mk (pathId p) p ∈ ps.foldl (addBookFromPath pathId) books := by
  induction ps generalizing books with
  | nil => cases hp
  | cons q rest ih =>
    simp only [List.foldl_cons]
    rcases List.mem_cons.mp hp with h1 | h2
    · subst h1
      refine mem_foldl_addBookFromPath_of_mem ?_ ?_
      · simp [addBookFromPath, hval, libAddBook]
      · intro r hr hEq
        have hrp : r = p := hinjL r (List.mem_cons_of_mem _ hr) hEq
        subst hrp
        exact (List.nodup_cons.mp hnd).1 hr
    · exact ih h2 (fun r hr hEq => hinjL r (List.mem_cons_of_mem _ hr) hEq)
        (List.nodup_cons.mp hnd).2

theorem foldl_addBookFromPath_consistent {pathId : String → String}
    {ps : List String} {books : List LibBook}
    (hcons : ∀ b ∈ books, b.id = pathId b.path) :
    ∀ b ∈ ps.foldl (addBookFromPath pathId) books, b.id = pathId b.path := by
  induction ps generalizing books with
  | nil => exact hcons
  | cons q rest ih =>
    simp only [List.foldl_cons]
    refine ih ?_
    intro b hb
    unfold addBookFromPath at hb
    by_cases hq : pathId q = ""
    · rw [if_pos hq] at hb; exact hcons b hb
    · rw [if_neg hq] at hb
      unfold libAddBook at hb
      rcases List.mem_cons.mp hb with h1 | h2
      · subst h1; rfl
      · exact hcons b (List.mem_of_mem_filter h2)

theorem removeBooksAtPaths_mem {pathId : String → String}
    {books : List LibBook} {qs : List String} {res : List LibBook}
    (hrun : removeBooksAtPaths books qs = some res)
    (hcons : ∀ b ∈ books, b.id = pathId b.path)
    (hinj : ∀ p q, pathId p = pathId q → p = q) :
    ∀ x, x ∈ res ↔ (x ∈ books ∧ x.path ∉ qs) := by
  induction qs generalizing books with
  | nil =>
    intro x
    simp only [removeBooksAtPaths, Option.some.injEq] at hrun
    subst hrun
    simp
  | cons q rest ih =>
    unfold removeBooksAtPaths at hrun
    cases hf : getBookByPath books q with
    | none => rw [hf] at hrun; cases hrun
    | some b0 =>
      rw [hf] at hrun
      have hb0mem : b0 ∈ books := List.mem_of_find?_eq_some hf
      have hb0path : b0.path = q := by
        have := List.find?_some hf
        simpa using this
      have hb0id : b0.id = pathId q := by
        rw [hcons b0 hb0mem, hb0path]
      have hcons' : ∀ b ∈ removeBookFromLibraryById books b0.id,
          b.id = pathId b.path :=
        fun b hb => hcons b (List.mem_of_mem_filter hb)
      intro x
      rw [ih hrun hcons']
      unfold removeBookFromLibraryById
      constructor
      · rintro ⟨hx', hnot⟩
        have hx : x ∈ books := List.mem_of_mem_filter hx'
        have hxid : x.id ≠ b0.id := by
          simpa using (List.mem_filter.mp hx').2
        refine ⟨hx, ?_⟩
        intro hmem
        rcases List.mem_cons.mp hmem with h1 | h2
        · exact hxid (by rw [hcons x hx, h1, ← hb0id])
        · exact hnot h2
      · rintro ⟨hx, hnot⟩
        have hq' : x.path ≠ q := fun h => hnot (h ▸ List.mem_cons_self _ _)
        refine ⟨List.mem_filter.mpr ⟨hx, ?_⟩,
          fun h => hnot (List.mem_cons_of_mem _ h)⟩
        simp only [decide_eq_true_eq]
        intro hEq
        exact hq' (hinj x.path q (by rw [← hcons x hx, hEq, hb0id]))

theorem loadMonitorDir_some {pathId : String → String} {listing : List String}
    {st st' : LibState} (hrun : loadMonitorDir pathId listing st = some st') :
    ∃ books2,
      removeBooksAtPaths
        ((addedZims listing st.monitorDirZims).foldl
          (addBookFromPath pathId) st.books)
        (removedZims listing st.monitorDirZims) = some books2 ∧
      st' = { books := books2, monitorDirZims := listing.dedup
            , saveCount := st.saveCount + 1
            , booksChangedCount := st.booksChangedCount + 1 } := by
  unfold loadMonitorDir at hrun
  cases h : removeBooksAtPaths
      ((addedZims listing st.monitorDirZims).foldl
        (addBookFromPath pathId) st.books)
      (removedZims listing st.monitorDirZims) with
  | none =>
    simp only [h] at hrun
    exact (Option.noConfusion hrun : False).elim
  | some books2 =>
    simp only [h, Option.some.injEq] at hrun
    exact ⟨books2, rfl, hrun.symm⟩

/-- C6: the reconciliation pass computes the added set as exactly
(listing minus recorded set) and the removed set as exactly (recorded set
minus listing), adds a book for each added file, ends with no catalog book
at any removed path, replaces the recorded set with the new listing, and
bumps the persistence and notification counters once each.  The engine id
extraction is assumed injective and the catalog consistent with it (every
book's id is the engine id of its path); every added file is assumed to be
a valid archive. -/
theorem C6_loadMonitorDir_reconciliation
    (pathId : String → String) (listing : List String) (st st' : LibState)
    (hrun : loadMonitorDir pathId listing st = some st')
    (hinj : ∀ p q, pathId p = pathId q → p = q)
    (hval : ∀ p ∈ addedZims listing st.monitorDirZims, pathId p ≠ "")
    (hcons : ∀ b ∈ st.books, b.id = pathId b.path) :
    (∀ x, x ∈ addedZims listing st.monitorDirZims ↔
      x ∈ listing ∧ x ∉ st.monitorDirZims) ∧
    (∀ x, x ∈ removedZims listing st.monitorDirZims ↔
      x ∈ st.monitorDirZims ∧ x ∉ listing) ∧
    (∀ x, x ∈ st'.monitorDirZims ↔ x ∈ listing) ∧
    (∀ p ∈ addedZims listing st.monitorDirZims,
      LibBook.mk (pathId p) p ∈ st'.books) ∧
    (∀ q ∈ removedZims listing st.monitorDirZims,
      ∀ b ∈ st'.books, b.path ≠ q) ∧
    st'.saveCount = st.saveCount + 1 ∧
    st'.booksChangedCount = st.booksChangedCount + 1 := by
  obtain ⟨books2, hrem, rfl⟩ := loadMonitorDir_some hrun
  have hcons1 : ∀ b ∈ (addedZims listing st.monitorDirZims).foldl
      (addBookFromPath pathId) st.books, b.id = pathId b.path :=
    foldl_addBookFromPath_consistent hcons
  have hmem2 := removeBooksAtPaths_mem hrem hcons1 hinj
  refine ⟨fun x => mem_addedZims, fun x => mem_removedZims, ?_, ?_, ?_, rfl, rfl⟩
  · intro x; simp [List.mem_dedup]
  · intro p hp
    have h1 : LibBook.mk (pathId p) p ∈
        (addedZims listing st.monitorDirZims).foldl
          (addBookFromPath pathId) st.books :=
      mem_foldl_addBookFromPath hp (hval p hp)
        (fun q _ hEq => hinj q p hEq) (nodup_addedZims _ _)
    refine (hmem2 _).mpr ⟨h1, ?_⟩
    intro hmemr
    exact (mem_removedZims.mp hmemr).2 (mem_addedZims.mp hp).1
  · intro q hq b hb heq
    exact ((hmem2 b).mp hb).2 (heq ▸ hq)

/-- C6 witness: the spec's example — recorded set `{a,b,c}`, listing
`{a,c,d}` — yields added `{d}`, removed `{b}`, and final recorded set
`{a,c,d}`; the book for `d` is added and the catalog is persisted. -/
theorem C6_loadMonitorDir_reconciliation_witness :
    loadMonitorDir (fun p => p) listingMon stMon = some stMonRes ∧
    ("d" ∈ addedZims listingMon stMon.monitorDirZims ↔
      "d" ∈ listingMon ∧ "d" ∉ stMon.monitorDirZims) ∧
    ("b" ∈ removedZims listingMon stMon.monitorDirZims ↔
      "b" ∈ stMon.monitorDirZims ∧ "b" ∉ listingMon) ∧
    LibBook.mk "d" "d" ∈ stMonRes.books ∧
    ("b" ∈ stMonRes.monitorDirZims ↔ "b" ∈ listingMon) ∧
    stMonRes.saveCount = stMon.saveCount + 1 :=
  ⟨rfl,
   (C6_loadMonitorDir_reconciliation (fun p => p) listingMon stMon stMonRes
     rfl (fun p q h => h) (by decide) (by decide)).1 "d",
   (C6_loadMonitorDir_reconciliation (fun p => p) listingMon stMon stMonRes
     rfl (fun p q h => h) (by decide) (by decide)).2.1 "b",
   (C6_loadMonitorDir_reconciliation (fun p => p) listingMon stMon stMonRes
     rfl (fun p q h => h) (by decide) (by decide)).2.2.2.1 "d" (by decide),
   (C6_loadMonitorDir_reconciliation (fun p => p) listingMon stMon stMonRes
     rfl (fun p q h => h) (by decide) (by decide)).2.2.1 "b",
   (C6_loadMonitorDir_reconciliation (fun p => p) listingMon stMon stMonRes
     rfl (fun p q h => h) (by decide) (by decide)).2.2.2.2.2.1⟩

/-! ### Rounding lemmas (towards C8) -/

theorem log10F_spec : ∀ (fuel n : Nat), n ≤ fuel → 1 ≤ n →
    10 ^ log10F fuel n ≤ n ∧ n < 10 ^ (log10F fuel n + 1) := by
  intro fuel
  induction fuel with
  | zero => intro n hle h1; omega
  | succ fuel ih =>
    intro n hle h1
    by_cases h10 : 10 ≤ n
    · have hdiv_lt : n / 10 < n := Nat.div_lt_self (by omega) (by norm_num)
      have hfuel : n / 10 ≤ fuel := by omega
      have h1' : 1 ≤ n / 10 := (Nat.one_le_div_iff (by norm_num)).mpr h10
      obtain ⟨ih1, ih2⟩ := ih (n / 10) hfuel h1'
      have hmod := Nat.div_add_mod n 10
      have hmodlt : n % 10 < 10 := Nat.mod_lt n (by norm_num)
      simp only [log10F, if_pos h10]
      constructor
      · calc 10 ^ (log10F fuel (n / 10) + 1)
            = 10 ^ log10F fuel (n / 10) * 10 := by rw [pow_succ]
          _ ≤ (n / 10) * 10 := Nat.mul_le_mul_right _ ih1
          _ ≤ n := by omega
      · calc n < 10 * (n / 10 + 1) := by omega
          _ ≤ 10 * 10 ^ (log10F fuel (n / 10) + 1) :=
            Nat.mul_le_mul_left _ (by omega)
          _ = 10 ^ (log10F fuel (n / 10) + 1 + 1) := by rw [pow_succ]; ring
    · simp only [log10F, if_neg h10]
      constructor
      · simpa using h1
      · simpa using by omega

theorem log10_spec (n : Nat) (h : 1 ≤ n) :
    10 ^ log10 n ≤ n ∧ n < 10 ^ (log10 n + 1) :=
  log10F_spec n n le_rfl h

theorem qpow10_pos (e : ℤ) : 0 < qpow10 e := by
  unfold qpow10
  split <;> positivity

theorem qpow10_natCast (n : Nat) : qpow10 (n : ℤ) = (10 : ℚ) ^ n := by
  unfold qpow10
  rw [if_pos (Int.natCast_nonneg n)]
  simp

theorem qpow10_succ (e : ℤ) : qpow10 (e + 1) = 10 * qpow10 e := by
  unfold qpow10
  by_cases h : 0 ≤ e
  · rw [if_pos h, if_pos (by omega)]
    rw [show (e + 1).toNat = e.toNat + 1 by omega, pow_succ]
    ring
  · by_cases h1 : e = -1
    · subst h1
      rw [if_pos (by norm_num), if_neg (by norm_num)]
      norm_num
    · rw [if_neg (by omega), if_neg h]
      rw [show (-e).toNat = (-(e + 1)).toNat + 1 by omega, pow_succ]
      field_simp

theorem qpow10_mono {e f : ℤ} (h : e ≤ f) : qpow10 e ≤ qpow10 f := by
  obtain ⟨n, rfl⟩ := Int.le.dest h
  induction n with
  | zero => simp
  | succ n ih =>
    have hcast : (((n : ℕ) + 1 : ℕ) : ℤ) = (n : ℤ) + 1 := by push_cast; ring
    calc qpow10 e ≤ qpow10 (e + n) := ih (by omega)
      _ ≤ qpow10 (e + n + 1) := by
          rw [qpow10_succ]
          have := qpow10_pos (e + n)
          linarith
      _ = qpow10 (e + ((n : ℕ) + 1 : ℕ)) := by rw [hcast, add_assoc]

theorem qpow10_two : qpow10 2 = 100 := by
  norm_num [qpow10, show ((2 : ℤ)).toNat = 2 from rfl]

theorem qpow10_zero : qpow10 0 = 1 := by
  norm_num [qpow10, show ((0 : ℤ)).toNat = 0 from rfl]

theorem qpow10_neg_two : qpow10 (-2) = 1 / 100 := by
  norm_num [qpow10, show (-(-2 : ℤ)).toNat = 2 from rfl,
    show ((2 : ℤ)).toNat = 2 from rfl]

theorem rexp_nonpos_of_lt_one {q : ℚ} (h : ¬ 1 ≤ q) : rexp q ≤ 0 := by
  unfold rexp
  rw [if_neg h]
  omega

theorem rexp_upper {q : ℚ} (h1 : 1 ≤ q) : q < qpow10 (rexp q + 1) := by
  unfold rexp
  rw [if_pos h1]
  have hf : (1 : ℤ) ≤ ⌊q⌋ := Int.le_floor.mpr (by exact_mod_cast h1)
  have hm1 : 1 ≤ ⌊q⌋.toNat := by omega
  obtain ⟨_, hhi⟩ := log10_spec ⌊q⌋.toNat hm1
  have hq : q < (⌊q⌋ : ℚ) + 1 := Int.lt_floor_add_one q
  have hfloor_eq : ((⌊q⌋.toNat : ℤ) : ℚ) = (⌊q⌋ : ℚ) := by
    exact_mod_cast congrArg (fun z => ((z : ℤ) : ℚ)) (Int.toNat_of_nonneg (by omega))
  have hcast : ((log10 ⌊q⌋.toNat : ℤ) + 1) = ((log10 ⌊q⌋.toNat + 1 : ℕ) : ℤ) := by
    push_cast; ring
  rw [hcast, qpow10_natCast]
  have h2 : (⌊q⌋.toNat : ℚ) + 1 ≤ ((10 : ℚ)) ^ (log10 ⌊q⌋.toNat + 1) := by
    exact_mod_cast (by omega : ⌊q⌋.toNat + 1 ≤ 10 ^ (log10 ⌊q⌋.toNat + 1))
  have : q < (⌊q⌋.toNat : ℚ) + 1 := by
    rw [show ((⌊q⌋.toNat : ℕ) : ℚ) = ((⌊q⌋.toNat : ℤ) : ℚ) by push_cast; ring,
      hfloor_eq]
    exact hq
  linarith

theorem rexp_le_one_of_lt_100 {q : ℚ} (h1 : 1 ≤ q) (h : q < 100) :
    rexp q ≤ 1 := by
  unfold rexp
  rw [if_pos h1]
  have hf : (1 : ℤ) ≤ ⌊q⌋ := Int.le_floor.mpr (by exact_mod_cast h1)
  have hflt : ⌊q⌋ < 100 := Int.floor_lt.mpr (by exact_mod_cast h)
  have hm1 : 1 ≤ ⌊q⌋.toNat := by omega
  have hm99 : ⌊q⌋.toNat ≤ 99 := by omega
  obtain ⟨hlo, _⟩ := log10_spec ⌊q⌋.toNat hm1
  by_contra hcon
  have hge : 2 ≤ log10 ⌊q⌋.toNat := by omega
  have : (100 : ℕ) ≤ 10 ^ log10 ⌊q⌋.toNat :=
    le_trans (by norm_num) (Nat.pow_le_pow_right (by norm_num) hge)
  omega

theorem rexp_100 : rexp 100 = 2 := by
  rw [rexp, if_pos (by norm_num : (1 : ℚ) ≤ 100)]
  rw [show ⌊(100 : ℚ)⌋ = 100 from by norm_num]
  decide

theorem roundSig3_nonneg {q : ℚ} (h : 0 ≤ q) : 0 ≤ roundSig3 q := by
  unfold roundSig3
  by_cases h0 : q = 0
  · simp [h0]
  · rw [if_neg h0]
    have hs : 0 < qpow10 (rexp q - 2) := qpow10_pos _
    have hq : 0 < q := lt_of_le_of_ne h (Ne.symm h0)
    have hx : (0 : ℚ) ≤ q / qpow10 (rexp q - 2) + 1 / 2 := by positivity
    have hfl : (0 : ℤ) ≤ ⌊q / qpow10 (rexp q - 2) + 1 / 2⌋ :=
      Int.le_floor.mpr (by exact_mod_cast hx)
    have hflQ : (0 : ℚ) ≤ (⌊q / qpow10 (rexp q - 2) + 1 / 2⌋ : ℚ) := by
      exact_mod_cast hfl
    exact mul_nonneg hflQ (le_of_lt hs)

theorem roundSig3_le_100 {q : ℚ} (h0 : 0 ≤ q) (h100 : q ≤ 100) :
    roundSig3 q ≤ 100 := by
  unfold roundSig3
  by_cases hq0 : q = 0
  · rw [if_pos hq0]; norm_num
  · rw [if_neg hq0]
    by_cases h1 : 1 ≤ q
    · by_cases h100e : q = 100
      · subst h100e
        rw [rexp_100, show ((2 : ℤ) - 2) = 0 from rfl, qpow10_zero]
        norm_num
      · have hlt : q < 100 := lt_of_le_of_ne h100 h100e
        have hub : q < qpow10 (rexp q + 1) := rexp_upper h1
        have hele : rexp q ≤ 1 := rexp_le_one_of_lt_100 h1 hlt
        have hs := qpow10_pos (rexp q - 2)
        have h1000 : qpow10 (rexp q + 1) = 1000 * qpow10 (rexp q - 2) := by
          rw [show rexp q + 1 = (rexp q - 2) + 1 + 1 + 1 by ring,
            qpow10_succ, qpow10_succ, qpow10_succ]
          ring
        have hdiv : q / qpow10 (rexp q - 2) < 1000 := by
          rw [div_lt_iff₀ hs]
          rw [h1000] at hub
          linarith
        have hfl : ⌊q / qpow10 (rexp q - 2) + 1 / 2⌋ < 1001 := by
          apply Int.floor_lt.mpr
          push_cast
          linarith
        have hfl' : (⌊q / qpow10 (rexp q - 2) + 1 / 2⌋ : ℚ) ≤ 1000 := by
          exact_mod_cast (by omega : ⌊q / qpow10 (rexp q - 2) + 1 / 2⌋ ≤ 1000)
        calc (⌊q / qpow10 (rexp q - 2) + 1 / 2⌋ : ℚ) * qpow10 (rexp q - 2)
            ≤ 1000 * qpow10 (rexp q - 2) :=
              mul_le_mul_of_nonneg_right hfl' (le_of_lt hs)
          _ = qpow10 (rexp q + 1) := h1000.symm
          _ ≤ qpow10 2 := qpow10_mono (by omega)
          _ = 100 := qpow10_two
    · have hqlt : q < 1 := not_le.mp h1
      have hs : 0 < qpow10 (rexp q - 2) := qpow10_pos _
      have hsle : qpow10 (rexp q - 2) ≤ qpow10 (-2) :=
        qpow10_mono (by have := rexp_nonpos_of_lt_one h1; omega)
      rw [qpow10_neg_two] at hsle
      have hfl : (⌊q / qpow10 (rexp q - 2) + 1 / 2⌋ : ℚ) ≤
          q / qpow10 (rexp q - 2) + 1 / 2 := Int.floor_le _
      have hmul : (⌊q / qpow10 (rexp q - 2) + 1 / 2⌋ : ℚ) * qpow10 (rexp q - 2) ≤
          (q / qpow10 (rexp q - 2) + 1 / 2) * qpow10 (rexp q - 2) :=
        mul_le_mul_of_nonneg_right hfl (le_of_lt hs)
      have hexpand : (q / qpow10 (rexp q - 2) + 1 / 2) * qpow10 (rexp q - 2) =
          q + qpow10 (rexp q - 2) / 2 := by
        field_simp
        ring
      rw [hexpand] at hmul
      linarith

/-- C8 counterexample: the claim says that for any nonnegative
engine-reported `completedLength` and `totalLength` the computed percent
is a well-defined value in 0–100.  At `completedLength = 2`,
`totalLength = 1` the code computes 200; at `0/0` the double division is
NaN, and at `x/0` (`x > 0`) it is infinite — the code divides without
checking `totalLength`. -/
theorem C8_percent_counterexample :
    percentOf 2 1 = DubVal.val 200 ∧
    ¬ ((200 : ℚ) ≤ 100) ∧
    percentOf 0 0 = DubVal.nan ∧
    ddiv 1 0 = DubVal.inf := by
  refine ⟨?_, by norm_num, ?_, ?_⟩
  · have h1 : ddiv 2 1 = DubVal.val 2 := by norm_num [ddiv]
    rw [percentOf, h1]
    show DubVal.val (roundSig3 (2 * 100)) = DubVal.val 200
    rw [show (2 : ℚ) * 100 = 200 by norm_num]
    rw [roundSig3, if_neg (by norm_num : (200 : ℚ) ≠ 0)]
    rw [show rexp 200 = 2 from by
      rw [rexp, if_pos (by norm_num : (1 : ℚ) ≤ 200)]
      rw [show ⌊(200 : ℚ)⌋ = 200 from by norm_num]
      decide]
    rw [show ((2 : ℤ) - 2) = 0 from rfl, qpow10_zero]
    norm_num
  · rw [percentOf, show ddiv 0 0 = DubVal.nan from by norm_num [ddiv]]
    rfl
  · norm_num [ddiv]

/-- C8 (amended): when the engine reports a positive `totalLength` and a
`completedLength` not exceeding it, the snapshot update computes a
well-defined percent — the completed/total ratio times 100, rounded to
three significant digits — lying in the range 0 to 100; when
`totalLength` is 0 the division is undefined (NaN or infinity). -/
theorem C8_percent_in_range (s : DownloadState) (info : DownloadInfo)
    (ht : 0 < info.totalLength) (hc : info.completedLength ≤ info.totalLength) :
    (s.update info).progress =
      DubVal.val (roundSig3
        ((info.completedLength : ℚ) / (info.totalLength : ℚ) * 100)) ∧
    0 ≤ roundSig3 ((info.completedLength : ℚ) / (info.totalLength : ℚ) * 100) ∧
    roundSig3 ((info.completedLength : ℚ) / (info.totalLength : ℚ) * 100) ≤ 100 := by
  have htQ : (0 : ℚ) < (info.totalLength : ℚ) := by exact_mod_cast ht
  have hne : (info.totalLength : ℚ) ≠ 0 := ne_of_gt htQ
  refine ⟨?_, ?_, ?_⟩
  · simp [DownloadState.update, percentOf, ddiv, hne, dmul100, dround3]
  · apply roundSig3_nonneg
    positivity
  · apply roundSig3_le_100
    · positivity
    · have hr : (info.completedLength : ℚ) / (info.totalLength : ℚ) ≤ 1 := by
        rw [div_le_one htQ]
        exact_mod_cast hc
      linarith

/-- C8 witness: for the snapshot update at 512 of 1024 bytes the percent
is well-defined and within range. -/
theorem C8_percent_in_range_witness :
    0 < infoHalf.totalLength ∧
    infoHalf.completedLength ≤ infoHalf.totalLength ∧
    (DownloadState.initial.update infoHalf).progress =
      DubVal.val (roundSig3
        ((infoHalf.completedLength : ℚ) / (infoHalf.totalLength : ℚ) * 100)) ∧
    0 ≤ roundSig3
      ((infoHalf.completedLength : ℚ) / (infoHalf.totalLength : ℚ) * 100) ∧
    roundSig3
      ((infoHalf.completedLength : ℚ) / (infoHalf.totalLength : ℚ) * 100) ≤ 100 :=
  ⟨by decide, by decide,
   (C8_percent_in_range DownloadState.initial infoHalf (by decide) (by decide)).1,
   (C8_percent_in_range DownloadState.initial infoHalf (by decide) (by decide)).2.1,
   (C8_percent_in_range DownloadState.initial infoHalf (by decide) (by decide)).2.2⟩

end Kiwix
